import Mathlib

/-!
Verification development for the olfsysm library (olfactory system model).

The C++ sources embedded here are:
 - src/libolfsysm/src/olfsysm.cpp   (simulation pipeline, sparsity tuning)
 - src/libolfsysm/api/olfsysm.hpp   (data model)
 - src/bindings/R/olfsysm/src/hook.cpp (named accessor surface)

Real-valued quantities of the C++ code (doubles) are modelled as rationals
wherever the code only uses field operations and comparisons, so that every
definition is executable; the APL weight-initialisation and learning-rate
formulas use transcendental functions (log, sqrt) and are modelled over ℝ.
-/

/- ---------------------------------------------------------------------
Sparsity-tuning iteration counter (olfsysm.cpp, fit_sparseness, lines
442-510).  The loop body increments tuning_iters once per pass; the
do-while condition is
  (|sp - sp_target| > sp_acc*sp_target) && (tuning_iters <= max_iters),
and after the loop one single section does tuning_iters--.
The sparsity test outcome for each pass is abstracted as an oracle
conv : ℕ → Bool (conv k = the measured sparsity is within tolerance after
the pass that set the counter to k); it is the result of floating-point
simulation the counter logic does not depend on.
The loop is phrased with the structurally decreasing argument
remaining = max_iters - i (the counter i increments every pass, and the
loop re-enters only while i+1 ≤ max_iters, i.e. while remaining > 0).
--------------------------------------------------------------------- -/

/-- Value of tuning_iters when the do-while loop of fit_sparseness exits,
starting a pass with counter i and remaining = max_iters - i further
passes allowed.  Each pass increments the counter; the loop exits when the
tolerance is reached (conv) or the counter exceeds max_iters. -/
def tuningLoopEnd (conv : ℕ → Bool) : ℕ → ℕ → ℕ
  | 0, i => i + 1
  | r + 1, i => if conv (i + 1) then i + 1 else tuningLoopEnd conv r (i + 1)

/-- The tuning_iters value stored by fit_sparseness at exit: with APL
enabled the counter starts at 1, runs the do-while loop, and is
decremented once at the end (olfsysm.cpp lines 442, 478, 503-510); with
APL disabled it stays 0 (line 397). -/
def fit_sparseness_iters (enable_apl : Bool) (max_iters : ℕ) (conv : ℕ → Bool) : ℕ :=
  if enable_apl then tuningLoopEnd conv (max_iters - 1) 1 - 1 else 0

/- ---------------------------------------------------------------------
APL feedback-weight initialisation and per-iteration update
(olfsysm.cpp, fit_sparseness, lines 442-471), over ℝ since the code uses
log and sqrt.  Vectors wAPLKC (N x 1) and wKCAPL (1 x N) are modelled as
lists of their entries.
--------------------------------------------------------------------- -/

/-- Starting values of the APL<->KC weight vectors (olfsysm.cpp lines
444-448): wAPLKC is set constant to 2*ceil(-log(sp_target)) and wKCAPL
constant to the same value divided by N. -/
noncomputable def aplWeightsInit (N : ℕ) (sp_target : ℝ) : List ℝ × List ℝ :=
  (List.replicate N (2 * (⌈-Real.log sp_target⌉ : ℝ)),
   List.replicate N (2 * (⌈-Real.log sp_target⌉ : ℝ) / N))

/-- One single-writer weight update of the tuning loop (olfsysm.cpp lines
459-471): lr = sp_lr_coeff/sqrt(tuning_iters), delta =
(sp - sp_target)*lr/sp_target; delta is added to every wAPLKC entry and
delta/N to every wKCAPL entry; when delta < 0 every negative entry of
both vectors is replaced by 0. -/
noncomputable def aplWeightsStep (N : ℕ) (sp_target sp_lr_coeff sp : ℝ) (iters : ℕ)
    (wAPLKC wKCAPL : List ℝ) : List ℝ × List ℝ :=
  let lr := sp_lr_coeff / Real.sqrt iters
  let delta := (sp - sp_target) * lr / sp_target
  let wIn := wAPLKC.map (fun x => x + delta)
  let wOut := wKCAPL.map (fun x => x + delta / N)
  if delta < 0 then
    (wIn.map (fun x => if x < 0 then 0 else x),
     wOut.map (fun x => if x < 0 then 0 else x))
  else (wIn, wOut)

/- ---------------------------------------------------------------------
KC layer simulation (olfsysm.cpp, sim_KC_layer, lines 582-608).
Matrices Vm and spikes are N x steps_all and zero-initialised; rows inh
and Is are zero-initialised; the loop runs t = start_step+1 .. steps_all-1.
The state after each step holds column t of Vm and spikes plus the scalars
inh(t), Is(t).
--------------------------------------------------------------------- -/

/-- Constant parameters and inputs of one sim_KC_layer call: time constants,
weights and thresholds read from RunVars, and the PN input time series
(column t of pn_t, per glomerulus). -/
structure KCSimParams (n g : ℕ) where
  dt : ℚ
  taum : ℚ
  apl_taum : ℚ
  tau_apl2kc : ℚ
  wPNKC : Fin n → Fin g → ℚ
  wAPLKC : Fin n → ℚ
  wKCAPL : Fin n → ℚ
  thr : Fin n → ℚ
  startStep : ℕ
  pn_t : ℕ → Fin g → ℚ

/-- Per-step state of sim_KC_layer: column t of Vm and spikes, and the
scalars inh(t) and Is(t). -/
structure KCSimState (n : ℕ) where
  vm : Fin n → ℚ
  spk : Fin n → ℚ
  inh : ℚ
  isyn : ℚ

/-- The all-zero KC state (Vm.setZero, spikes.setZero, inh/Is zero rows). -/
def kcZero (n : ℕ) : KCSimState n :=
  { vm := fun _ => 0, spk := fun _ => 0, inh := 0, isyn := 0 }

/-- Freshly integrated membrane voltage at step t (before threshold
comparison): Vm.col(t) = Vm.col(t-1) + dKCdt*dt/taum with
dKCdt = -Vm.col(t-1) + wPNKC*pn_t.col(t) - wAPLKC*inh(t-1). -/
def kcVmRawOf {n g : ℕ} (p : KCSimParams n g) (s : KCSimState n) (t : ℕ) : Fin n → ℚ :=
  fun i =>
    s.vm i + (-(s.vm i) + (∑ j, p.wPNKC i j * p.pn_t t j) - p.wAPLKC i * s.inh)
      * p.dt / p.taum

/-- One iteration of the sim_KC_layer loop at step t (olfsysm.cpp lines
592-607): Euler updates of Is, inh and Vm, then the threshold comparison
sets spikes.col(t) to 1 where Vm.col(t) > thr (the column keeps its
initial 0 elsewhere) and resets the spiking units' voltage to 0. -/
def kcStep {n g : ℕ} (p : KCSimParams n g) (s : KCSimState n) (t : ℕ) : KCSimState n :=
  let vmRaw := kcVmRawOf p s t
  let dIsdt := -s.isyn + (∑ i, p.wKCAPL i * s.spk i) * 10000
  let dinhdt := -s.inh + s.isyn
  { vm := fun i => if p.thr i < vmRaw i then 0 else vmRaw i
    spk := fun i => if p.thr i < vmRaw i then 1 else 0
    inh := s.inh + dinhdt * p.dt / p.apl_taum
    isyn := s.isyn + dIsdt * p.dt / p.tau_apl2kc }

/-- Column-t state of sim_KC_layer: all columns with index at most
start_step keep their zero initialisation (the loop starts at
start_step+1); later columns are produced by kcStep from the previous
column. -/
def kcSim {n g : ℕ} (p : KCSimParams n g) : ℕ → KCSimState n
  | 0 => kcZero n
  | t + 1 => if t + 1 ≤ p.startStep then kcZero n else kcStep p (kcSim p t) (t + 1)

/-- Freshly integrated voltage at column t, read off the previous column's
state. -/
def kcVmRaw {n g : ℕ} (p : KCSimParams n g) (t : ℕ) : Fin n → ℚ :=
  kcVmRawOf p (kcSim p (t - 1)) t

/- ---------------------------------------------------------------------
KC threshold choice (olfsysm.cpp, choose_KC_thresh_uniform lines 331-341
and choose_KC_thresh_homeostatic lines 342-362).  KCpks is an
N x tlist_sz matrix of peak voltages; spont_in the spontaneous-input
column.  std::sort with a greater-than comparator is modelled by
List.insertionSort with the relation GE.
--------------------------------------------------------------------- -/

/-- Population-wide threshold policy (olfsysm.cpp lines 331-341): flatten
the peaks, sort in decreasing order, pick the entry at index
min(int(sp_target*2*(N*tlist_sz)), N*tlist_sz - 1) as a scalar
thr_const, and return thr_const + 2*spont per unit.  KCpks is passed
already flattened (length N*tlist_sz). -/
def choose_KC_thresh_uniform (N tlist_sz : ℕ) (sp_target : ℚ)
    (KCpks : List ℚ) (spont_in : List ℚ) : List ℚ :=
  let len := N * tlist_sz
  let sorted := KCpks.insertionSort (· ≥ ·)
  let idx := min (⌊sp_target * 2 * (len : ℚ)⌋.toNat) (len - 1)
  let thr_const := sorted.getD idx 0
  spont_in.map (fun s => thr_const + s * 2)

/-- Per-unit (homeostatic) threshold policy (olfsysm.cpp lines 342-362):
for each KC row (of length cols = tlist_sz), sort the row in decreasing
order and add the entry at index wanted = unsigned(sp_target*2*cols) to
2*spont for that unit.  The C++ code indexes without any clamp; the model
returns none exactly when that raw access would be out of bounds. -/
def choose_KC_thresh_homeostatic (N cols : ℕ) (sp_target : ℚ)
    (KCpks : Fin N → List ℚ) (spont_in : Fin N → ℚ) : Option (Fin N → ℚ) :=
  let wanted := (⌊sp_target * 2 * (cols : ℚ)⌋).toNat
  if wanted < cols then
    some (fun i => 2 * spont_in i + ((KCpks i).insertionSort (· ≥ ·)).getD wanted 0)
  else none

/- ---------------------------------------------------------------------
PN->KC connectivity generation (olfsysm.cpp, build_wPNKC_from_cxnd lines
296-308 and build_wPNKC lines 309-320).  The std::discrete_distribution
draws are abstracted as an oracle draw : kc index -> claw index -> chosen
glomerulus; a possible outcome of the distribution built from weight row
cxnd only ever picks indices of positive weight.
--------------------------------------------------------------------- -/

/-- Accumulated row of one KC after its first c claws: starting from a
zero row, each claw increments the drawn glomerulus' cell by 1.0. -/
def clawAccum (G : ℕ) (draw : ℕ → Fin G) : ℕ → Fin G → ℚ
  | 0, _ => 0
  | c + 1, glom => clawAccum G draw c glom + if draw c = glom then 1 else 0

/-- The wPNKC matrix produced by build_wPNKC_from_cxnd: the matrix is
zeroed and every KC row receives nclaws increments at the drawn cells.
The weight row cxnd parameterises the distribution the draws come from
(it does not otherwise enter the filling loop). -/
def build_wPNKC_from_cxnd (N G nclaws : ℕ) (cxnd : Fin G → ℚ)
    (draw : Fin N → ℕ → Fin G) : Fin N → Fin G → ℚ :=
  fun kc => clawAccum G (draw kc) nclaws

/-- Dispatch of build_wPNKC (olfsysm.cpp lines 309-320): with uniform_pns
the weight row is replaced by an all-ones row, otherwise cxn_distrib is
used. -/
def build_wPNKC (uniform_pns : Bool) (N G nclaws : ℕ) (cxn_distrib : Fin G → ℚ)
    (draw : Fin N → ℕ → Fin G) : Fin N → Fin G → ℚ :=
  if uniform_pns then build_wPNKC_from_cxnd N G nclaws (fun _ => 1) draw
  else build_wPNKC_from_cxnd N G nclaws cxn_distrib draw

/- ---------------------------------------------------------------------
Time grid (olfsysm.hpp struct ModelParams::Time and olfsysm.cpp lines
151-178) and pre-settle trimming (olfsysm.cpp, remove_before lines
677-682 and remove_all_pretime lines 683-709).  A time-series matrix is
modelled as the list of its columns.
--------------------------------------------------------------------- -/

/-- Time-grid parameters (ModelParams::Time).  The C++ field named end is
called endT here (end is reserved in Lean). -/
structure TimeParams where
  pre_start : ℚ
  start : ℚ
  endT : ℚ
  dt : ℚ

/-- Pretime-relative start step: unsigned((start - pre_start)/dt), i.e.
the floor for the non-negative values the invariant guarantees. -/
def TimeParams.start_step (tp : TimeParams) : ℕ :=
  (⌊(tp.start - tp.pre_start) / tp.dt⌋).toNat

/-- Total number of timesteps: unsigned((end - pre_start)/dt). -/
def TimeParams.steps_all (tp : TimeParams) : ℕ :=
  (⌊(tp.endT - tp.pre_start) / tp.dt⌋).toNat

/-- Number of real timesteps: unsigned((end - start)/dt). -/
def TimeParams.steps (tp : TimeParams) : ℕ :=
  (⌊(tp.endT - tp.start) / tp.dt⌋).toNat

/-- remove_before (olfsysm.cpp lines 677-682): keep the block of columns
from index step to the end. -/
def remove_before (step : ℕ) (timecourse : List (List ℚ)) : List (List ℚ) :=
  timecourse.drop step

/-- The per-odor time-series collections trimmed by remove_all_pretime:
ORN sims, both LN inhibition channels, and PN sims. -/
structure SimSeries where
  orn_sims : List (List (List ℚ))
  ln_inhA_sims : List (List (List ℚ))
  ln_inhB_sims : List (List (List ℚ))
  pn_sims : List (List (List ℚ))

/-- remove_all_pretime (olfsysm.cpp lines 683-709): apply
remove_before(start_step) to every stored ORN, LN-inhibition and PN
timecourse. -/
def remove_all_pretime (tp : TimeParams) (r : SimSeries) : SimSeries :=
  { orn_sims := r.orn_sims.map (remove_before tp.start_step)
    ln_inhA_sims := r.ln_inhA_sims.map (remove_before tp.start_step)
    ln_inhB_sims := r.ln_inhB_sims.map (remove_before tp.start_step)
    pn_sims := r.pn_sims.map (remove_before tp.start_step) }

/- ---------------------------------------------------------------------
KC orchestration (olfsysm.cpp, run_KC_sims, lines 647-675).
--------------------------------------------------------------------- -/

/-- KC-related run variables (RunVars::KC, olfsysm.hpp lines 232-252).
responses and spike_counts are stored per odor (one column each). -/
structure KCRunVars (n g odors : ℕ) where
  wPNKC : Fin n → Fin g → ℚ
  wAPLKC : Fin n → ℚ
  wKCAPL : Fin n → ℚ
  thr : Fin n → ℚ
  responses : Fin odors → Fin n → ℚ
  spike_counts : Fin odors → Fin n → ℚ
  tuning_iters : ℕ

/-- Scalar model parameters consumed by run_KC_sims and sim_KC_layer. -/
structure KCSimConsts where
  dt : ℚ
  taum : ℚ
  apl_taum : ℚ
  tau_apl2kc : ℚ
  startStep : ℕ
  stepsAll : ℕ

/-- sim_KC_layer parameters assembled, as the code does, from the scalar
constants, the currently stored weights/thresholds, and one odor's PN
time series. -/
def mkKCSimParams {n g : ℕ} (sc : KCSimConsts) (rv : KCRunVars n g odors)
    (pn : ℕ → Fin g → ℚ) : KCSimParams n g :=
  { dt := sc.dt, taum := sc.taum, apl_taum := sc.apl_taum
    tau_apl2kc := sc.tau_apl2kc, wPNKC := rv.wPNKC, wAPLKC := rv.wAPLKC
    wKCAPL := rv.wKCAPL, thr := rv.thr, startStep := sc.startStep, pn_t := pn }

/-- run_KC_sims (olfsysm.cpp lines 647-675): when regen is set,
connectivity generation and sparsity fitting run first (abstracted here
as the state transformation buildFit, the composition of build_wPNKC and
fit_sparseness; it is not exercised with regen = false); then for every
odor sim_KC_layer is run with the stored weights and thresholds,
spike_counts.col(odor) receives the row-wise spike totals, and
responses.col(odor) their binarisation ((count > 0).select(1, count)). -/
def run_KC_sims {n g odors : ℕ} (sc : KCSimConsts)
    (pn_sims : Fin odors → ℕ → Fin g → ℚ) (regen : Bool)
    (buildFit : KCRunVars n g odors → KCRunVars n g odors)
    (rv : KCRunVars n g odors) : KCRunVars n g odors :=
  let rv1 := if regen then buildFit rv else rv
  let counts : Fin odors → Fin n → ℚ := fun o i =>
    ∑ t ∈ Finset.range sc.stepsAll, (kcSim (mkKCSimParams sc rv1 (pn_sims o)) t).spk i
  { rv1 with
    spike_counts := counts
    responses := fun o i => if 0 < counts o i then 1 else counts o i }

/- ---------------------------------------------------------------------
LN layer simulation (olfsysm.cpp, sim_LN_layer, lines 532-557).
--------------------------------------------------------------------- -/

/-- Parameters and input of sim_LN_layer: LN constants, the physical
glomerulus count, and the ORN time series (column t, per glomerulus, of
one odor's orn_t). -/
structure LNParams (g : ℕ) where
  dt : ℚ
  taum : ℚ
  tauGA : ℚ
  tauGB : ℚ
  thr : ℚ
  inhsc : ℚ
  inhadd : ℚ
  nPhysicalGloms : ℕ
  orn_t : ℕ → Fin g → ℚ

/-- Per-step state of sim_LN_layer: potential(t), response(t), inhA(t),
inhB(t) and the gain variable inh_LN as updated during step t. -/
structure LNState where
  potential : ℚ
  response : ℚ
  inhA : ℚ
  inhB : ℚ
  inhLN : ℚ

/-- Initial LN state (olfsysm.cpp lines 536-540): potential row constant
300, response row all ones, both accumulators constant 50, inh_LN = 0. -/
def lnInit : LNState :=
  { potential := 300, response := 1, inhA := 50, inhB := 50, inhLN := 0 }

/-- One iteration of the sim_LN_layer loop at step t (olfsysm.cpp lines
544-556): accumulator Euler updates from the previous response; the
potential drive pow(mean(orn.col(t-1))*scaling, 3)/scaling/2*inh_LN uses
the gain value left by the previous iteration; the gain is then
recomputed from the fresh inhA(t); the response is the rectified
above-threshold potential. -/
def lnStep {g : ℕ} (p : LNParams g) (s : LNState) (t : ℕ) : LNState :=
  let scaling : ℚ := (g : ℚ) / (p.nPhysicalGloms : ℚ)
  let dinhAdt := -s.inhA + s.response
  let dinhBdt := -s.inhB + s.response
  let ornMean := (∑ j, p.orn_t (t - 1) j) / (g : ℚ)
  let dLNdt := -s.potential + (ornMean * scaling) ^ 3 / scaling / 2 * s.inhLN
  let inhA := s.inhA + dinhAdt * p.dt / p.tauGA
  let inhB := s.inhB + dinhBdt * p.dt / p.tauGB
  let inhLN := p.inhsc / (p.inhadd + inhA)
  let potential := s.potential + dLNdt * p.dt / p.taum
  let response := (potential - p.thr) * (if p.thr < potential then 1 else 0)
  { potential := potential, response := response, inhA := inhA, inhB := inhB,
    inhLN := inhLN }

/-- State of sim_LN_layer after step t (the loop runs t = 1, 2, ...). -/
def lnSim {g : ℕ} (p : LNParams g) : ℕ → LNState
  | 0 => lnInit
  | t + 1 => lnStep p (lnSim p t) (t + 1)

/-- Modelled from the spec: the LN drive term as claim C2/C8's sentence
words it, namely the mean of receptor activity across glomeruli raised
to the 3rd power, rescaled by the physical-to-model glomerulus-count
ratio, multiplied by the inhibition gain inhsc/(inhadd + inhA) at the
current step.  Used only to compare the specification's sentence with the
code's actual drive. -/
def lnDriveSpec {g : ℕ} (p : LNParams g) (t : ℕ) : ℚ :=
  ((∑ j, p.orn_t (t - 1) j) / (g : ℚ)) ^ 3 * ((p.nPhysicalGloms : ℚ) / (g : ℚ))
    * (p.inhsc / (p.inhadd + (lnSim p t).inhA))

/- ---------------------------------------------------------------------
Run-variable accessor surface (hook.cpp, access_rvar, lines 122-145).
Each ACCESS(n, p) clause compares the requested name against n; on a
match it assigns the passed value to the field when set is true and
returns the (possibly updated) field; when no clause matches,
Rcpp::stop("invalid run variable: " + name) raises without having touched
any state.  Matrix-valued, matrix-list-valued and unsigned-valued fields
are wrapped in one value type.
--------------------------------------------------------------------- -/

/-- Values exchanged over the accessor boundary: a matrix, a list of
per-odor matrices, or an unsigned scalar. -/
inductive RVal where
  | mat : List (List ℚ) → RVal
  | matList : List (List (List ℚ)) → RVal
  | nat : ℕ → RVal
deriving DecidableEq

/-- The run-variable fields addressable through access_rvar, one per
ACCESS clause of hook.cpp lines 130-141. -/
structure RunVarsAcc where
  orn_rates : List (List ℚ)
  orn_spont : List (List ℚ)
  orn_delta : List (List ℚ)
  orn_sims : List (List (List ℚ))
  ln_inhA_sims : List (List (List ℚ))
  ln_inhB_sims : List (List (List ℚ))
  pn_sims : List (List (List ℚ))
  kc_wPNKC : List (List ℚ)
  kc_wAPLKC : List (List ℚ)
  kc_thr : List (List ℚ)
  kc_responses : List (List ℚ)
  kc_tuning_iters : ℕ

/-- One matched ACCESS clause for a matrix field: set assigns the passed
value first (a wrongly-typed value makes Rcpp::as throw before any
assignment), then the stored field is returned. -/
def accMat (rv : RunVarsAcc) (set : Bool) (val : RVal)
    (get : RunVarsAcc → List (List ℚ))
    (put : RunVarsAcc → List (List ℚ) → RunVarsAcc) :
    RunVarsAcc × Except String RVal :=
  if set then
    match val with
    | RVal.mat m => let rv' := put rv m; (rv', Except.ok (RVal.mat (get rv')))
    | _ => (rv, Except.error ("type mismatch"))
  else (rv, Except.ok (RVal.mat (get rv)))

/-- One matched ACCESS clause for a matrix-list field. -/
def accMatList (rv : RunVarsAcc) (set : Bool) (val : RVal)
    (get : RunVarsAcc → List (List (List ℚ)))
    (put : RunVarsAcc → List (List (List ℚ)) → RunVarsAcc) :
    RunVarsAcc × Except String RVal :=
  if set then
    match val with
    | RVal.matList m => let rv' := put rv m; (rv', Except.ok (RVal.matList (get rv')))
    | _ => (rv, Except.error ("type mismatch"))
  else (rv, Except.ok (RVal.matList (get rv)))

/-- One matched ACCESS clause for the unsigned field. -/
def accNat (rv : RunVarsAcc) (set : Bool) (val : RVal)
    (get : RunVarsAcc → ℕ) (put : RunVarsAcc → ℕ → RunVarsAcc) :
    RunVarsAcc × Except String RVal :=
  if set then
    match val with
    | RVal.nat m => let rv' := put rv m; (rv', Except.ok (RVal.nat (get rv')))
    | _ => (rv, Except.error ("type mismatch"))
  else (rv, Except.ok (RVal.nat (get rv)))

/-- access_rvar (hook.cpp lines 122-145): try each ACCESS clause in
order; on no match fail with a message naming the invalid variable,
leaving the state untouched. -/
def access_rvar (rv : RunVarsAcc) (name : String) (val : RVal) (set : Bool) :
    RunVarsAcc × Except String RVal :=
  if name = ("orn.rates") then
    accMat rv set val (fun r => r.orn_rates) (fun r m => { r with orn_rates := m })
  else if name = ("orn.spont") then
    accMat rv set val (fun r => r.orn_spont) (fun r m => { r with orn_spont := m })
  else if name = ("orn.delta") then
    accMat rv set val (fun r => r.orn_delta) (fun r m => { r with orn_delta := m })
  else if name = ("orn.sims") then
    accMatList rv set val (fun r => r.orn_sims) (fun r m => { r with orn_sims := m })
  else if name = ("ln.inhA.sims") then
    accMatList rv set val (fun r => r.ln_inhA_sims) (fun r m => { r with ln_inhA_sims := m })
  else if name = ("ln.inhB.sims") then
    accMatList rv set val (fun r => r.ln_inhB_sims) (fun r m => { r with ln_inhB_sims := m })
  else if name = ("pn.sims") then
    accMatList rv set val (fun r => r.pn_sims) (fun r m => { r with pn_sims := m })
  else if name = ("kc.wPNKC") then
    accMat rv set val (fun r => r.kc_wPNKC) (fun r m => { r with kc_wPNKC := m })
  else if name = ("kc.wAPLKC") then
    accMat rv set val (fun r => r.kc_wAPLKC) (fun r m => { r with kc_wAPLKC := m })
  else if name = ("kc.thr") then
    accMat rv set val (fun r => r.kc_thr) (fun r m => { r with kc_thr := m })
  else if name = ("kc.responses") then
    accMat rv set val (fun r => r.kc_responses) (fun r m => { r with kc_responses := m })
  else if name = ("kc.tuning_iters") then
    accNat rv set val (fun r => r.kc_tuning_iters) (fun r m => { r with kc_tuning_iters := m })
  else (rv, Except.error (("invalid run variable: ") ++ name))

/-- The names access_rvar recognises, in clause order. -/
def rvarNames : List String :=
  [("orn.rates"), ("orn.spont"), ("orn.delta"), ("orn.sims"),
   ("ln.inhA.sims"), ("ln.inhB.sims"), ("pn.sims"), ("kc.wPNKC"),
   ("kc.wAPLKC"), ("kc.thr"), ("kc.responses"), ("kc.tuning_iters")]

/- ---------------------------------------------------------------------
Statement abbreviations (the properties the claims assert) and concrete
inputs used to instantiate the theorems below.
--------------------------------------------------------------------- -/

/-- Property asserted for sim_KC_layer columns: after the run-start step
the spike flag of a unit is 1 exactly when the freshly integrated voltage
exceeds that unit's threshold, a set flag forces the stored voltage of
that column to 0, and every column at or before the run-start step holds
zero flags and voltages. -/
def KCSpikeSpec {n g : ℕ} (p : KCSimParams n g) (t : ℕ) (i : Fin n) : Prop :=
  ((kcSim p t).spk i = 1 ↔ p.thr i < kcVmRaw p t i)
  ∧ ((kcSim p t).spk i = 1 → (kcSim p t).vm i = 0)
  ∧ (∀ s ≤ p.startStep, (kcSim p s).spk i = 0 ∧ (kcSim p s).vm i = 0)

/-- Property asserted for the connectivity generator: every entry of the
generated matrix is a non-negative integer, every row sums to the claw
count, and the uniform mode coincides with the weighted generator run on
an all-ones weight row. -/
def WPNKCSpec (N G nclaws : ℕ) (cxnd : Fin G → ℚ) (draw : Fin N → ℕ → Fin G) : Prop :=
  (∀ kc : Fin N, ∀ glom : Fin G,
      ∃ m : ℕ, build_wPNKC_from_cxnd N G nclaws cxnd draw kc glom = (m : ℚ))
  ∧ (∀ kc : Fin N, ∑ glom, build_wPNKC_from_cxnd N G nclaws cxnd draw kc glom = (nclaws : ℚ))
  ∧ build_wPNKC true N G nclaws cxnd draw = build_wPNKC_from_cxnd N G nclaws (fun _ => 1) draw

/-- Property asserted for the trimming utility: every trimmed ORN,
LN-inhibition and PN series equals the last steps() columns of its
original and has exactly steps() columns. -/
def TrimSpec (tp : TimeParams) (r : SimSeries) : Prop :=
  ((remove_all_pretime tp r).orn_sims
      = r.orn_sims.map (fun s => s.drop (s.length - tp.steps))
    ∧ ∀ s ∈ (remove_all_pretime tp r).orn_sims, s.length = tp.steps)
  ∧ ((remove_all_pretime tp r).ln_inhA_sims
      = r.ln_inhA_sims.map (fun s => s.drop (s.length - tp.steps))
    ∧ ∀ s ∈ (remove_all_pretime tp r).ln_inhA_sims, s.length = tp.steps)
  ∧ ((remove_all_pretime tp r).ln_inhB_sims
      = r.ln_inhB_sims.map (fun s => s.drop (s.length - tp.steps))
    ∧ ∀ s ∈ (remove_all_pretime tp r).ln_inhB_sims, s.length = tp.steps)
  ∧ ((remove_all_pretime tp r).pn_sims
      = r.pn_sims.map (fun s => s.drop (s.length - tp.steps))
    ∧ ∀ s ∈ (remove_all_pretime tp r).pn_sims, s.length = tp.steps)

/-- Property asserted for the homeostatic threshold chooser: the raw
(unclamped) access at rank unsigned(2*sp_target*odors) succeeds exactly
when that rank is below the tuning-column count; the rank is always in
bounds when sp_target < 1/2 and the tuning subset is non-empty; the
clamped population-wide index is in bounds for every target; and at
sp_target = 1/2 with one tuning odor the homeostatic access goes out of
bounds. -/
def HomeostaticSpec (N cols : ℕ) (sp : ℚ) (KCpks : Fin N → List ℚ)
    (spont_in : Fin N → ℚ) : Prop :=
  ((choose_KC_thresh_homeostatic N cols sp KCpks spont_in).isSome
      ↔ (⌊sp * 2 * (cols : ℚ)⌋).toNat < cols)
  ∧ (sp < 1 / 2 → 1 ≤ cols → (⌊sp * 2 * (cols : ℚ)⌋).toNat < cols)
  ∧ (∀ sp' : ℚ, ∀ L : ℕ, 1 ≤ L → min ((⌊sp' * 2 * (L : ℚ)⌋).toNat) (L - 1) < L)
  ∧ choose_KC_thresh_homeostatic 1 1 (1 / 2) (fun _ => [0]) (fun _ => 0) = none

/-- Property asserted (as amended) for the accessor surface: the
documented result names kc.responses, kc.thr and kc.tuning_iters return
the stored variables without mutation, and every unrecognised name fails
with a message naming it, the state untouched. -/
def AccessRvarSpec (rv : RunVarsAcc) (v : RVal) (s : Bool) (name : String) : Prop :=
  access_rvar rv ("kc.responses") v false = (rv, Except.ok (RVal.mat rv.kc_responses))
  ∧ access_rvar rv ("kc.thr") v false = (rv, Except.ok (RVal.mat rv.kc_thr))
  ∧ access_rvar rv ("kc.tuning_iters") v false = (rv, Except.ok (RVal.nat rv.kc_tuning_iters))
  ∧ access_rvar rv name v s = (rv, Except.error (("invalid run variable: ") ++ name))

/-- Concrete sim_KC_layer parameter set used to instantiate the spike
property. -/
def kcEx : KCSimParams 1 1 :=
  { dt := 1, taum := 1, apl_taum := 1, tau_apl2kc := 1,
    wPNKC := fun _ _ => 1, wAPLKC := fun _ => 1, wKCAPL := fun _ => 1,
    thr := fun _ => 0, startStep := 0, pn_t := fun t _ => (t : ℚ) }

/-- Concrete time grid (pre_start -1, start 0, end 1, dt 1/2) used to
instantiate the trimming property. -/
def tpEx : TimeParams :=
  { pre_start := -1, start := 0, endT := 1, dt := 1 / 2 }

/-- Concrete run state with one series of four columns per family. -/
def rEx : SimSeries :=
  { orn_sims := [[[0], [1], [2], [3]]]
    ln_inhA_sims := [[[0], [1], [2], [3]]]
    ln_inhB_sims := [[[0], [1], [2], [3]]]
    pn_sims := [[[0], [1], [2], [3]]] }

/-- Concrete sim_LN_layer parameter set (one model glomerulus, two
physical glomeruli, constant unit receptor activity) used to compare the
code's drive with the specification sentence's drive. -/
def lnEx : LNParams 1 :=
  { dt := 1, taum := 1, tauGA := 1, tauGB := 1, thr := 1,
    inhsc := 1, inhadd := 0, nPhysicalGloms := 2, orn_t := fun _ _ => 1 }

/-- Misaligned but invariant-satisfying time grid (pre_start 0, start
1/20, end 1/5, dt 1/10): pre_start < start, start < end and dt > 0 hold,
yet neither start - pre_start nor end - start is a multiple of dt, so
steps_all = 2, start_step = 0 and steps = 1. -/
def tpMis : TimeParams :=
  { pre_start := 0, start := 1 / 20, endT := 1 / 5, dt := 1 / 10 }

/-- Run state with one two-column (= steps_all for tpMis) series per
family. -/
def rMis : SimSeries :=
  { orn_sims := [[[0], [1]]], ln_inhA_sims := [[[0], [1]]],
    ln_inhB_sims := [[[0], [1]]], pn_sims := [[[0], [1]]] }

/-- Concrete accessor state with empty matrices. -/
def rvEx : RunVarsAcc :=
  { orn_rates := [], orn_spont := [], orn_delta := [], orn_sims := [],
    ln_inhA_sims := [], ln_inhB_sims := [], pn_sims := [], kc_wPNKC := [],
    kc_wAPLKC := [], kc_thr := [], kc_responses := [], kc_tuning_iters := 0 }

/- ---------------------------------------------------------------------
Theorems.
--------------------------------------------------------------------- -/

/-- Helper: the exit value of the do-while counter is bounded by the
start value plus the allowed passes plus one. -/
theorem tuningLoopEnd_le (conv : ℕ → Bool) : ∀ r i : ℕ, tuningLoopEnd conv r i ≤ i + r + 1 := by
  intro r
  induction r with
  | zero => intro i; simp [tuningLoopEnd]
  | succ r ih =>
      intro i
      simp only [tuningLoopEnd]
      split
      · omega
      · exact le_trans (ih (i + 1)) (by omega)

/-- C1: with APL feedback enabled and max_iters >= 1, the tuning-iteration
count stored by fit_sparseness at exit (the counter decremented once at
the end, having been incremented before use each pass) never exceeds
max_iters, whatever the per-pass sparsity-tolerance outcomes are. -/
theorem fit_sparseness_iter_bound (enable_apl : Bool) (max_iters : ℕ) (conv : ℕ → Bool)
    (hapl : enable_apl = true) (hmax : 1 ≤ max_iters) :
    fit_sparseness_iters enable_apl max_iters conv ≤ max_iters := by
  subst hapl
  have h := tuningLoopEnd_le conv (max_iters - 1) 1
  simp only [fit_sparseness_iters, if_pos]
  omega

/-- Witness instantiating the iteration bound at max_iters = 3 with an
oracle that never reaches tolerance. -/
theorem fit_sparseness_iter_bound_witness :
    (true = true ∧ 1 ≤ 3) ∧ fit_sparseness_iters true 3 (fun _ => false) ≤ 3 :=
  ⟨⟨rfl, by decide⟩, fit_sparseness_iter_bound true 3 (fun _ => false) rfl (by decide)⟩

/-- Helper: zero-clamping the negatives is the max with zero. -/
theorem ite_neg_zero_eq_max (x : ℝ) : (if x < 0 then (0 : ℝ) else x) = max x 0 := by
  rcases lt_or_le x 0 with h | h
  · rw [if_pos h, max_eq_right h.le]
  · rw [if_neg (not_lt.mpr h), max_eq_left h]

/-- C2: with APL enabled both feedback weight vectors start at
2*ceil(-ln(sp_target)) (the out-weights divided by N), and each tuning
iteration adds delta = (sp - sp_target)*lr/sp_target with
lr = sp_lr_coeff/sqrt(iteration count) to every feedback-in weight and
delta/N to every feedback-out weight; when delta < 0 every entry is
clamped below at 0 after the addition, and when delta >= 0 no clamping
occurs. -/
theorem apl_weights_formula (N : ℕ) (t c sp : ℝ) (iters : ℕ) (wIn wOut : List ℝ) :
    aplWeightsInit N t =
      (List.replicate N (2 * (⌈-Real.log t⌉ : ℝ)),
       List.replicate N (2 * (⌈-Real.log t⌉ : ℝ) / N))
    ∧ aplWeightsStep N t c sp iters wIn wOut =
      (if (sp - t) * (c / Real.sqrt iters) / t < 0 then
        (wIn.map (fun x => max (x + (sp - t) * (c / Real.sqrt iters) / t) 0),
         wOut.map (fun x => max (x + (sp - t) * (c / Real.sqrt iters) / t / N) 0))
       else
        (wIn.map (fun x => x + (sp - t) * (c / Real.sqrt iters) / t),
         wOut.map (fun x => x + (sp - t) * (c / Real.sqrt iters) / t / N))) := by
  refine ⟨rfl, ?_⟩
  by_cases h : (sp - t) * (c / Real.sqrt iters) / t < 0
  · simp only [aplWeightsStep, if_pos h, List.map_map]
    congr 1 <;>
      exact List.map_congr_left fun x _ => by
        simp only [Function.comp_apply, ite_neg_zero_eq_max]
  · simp only [aplWeightsStep, if_neg h]

/-- C3: in sim_KC_layer, at every column t past the run-start step the
spike flag of unit i is 1 iff the freshly integrated voltage at t exceeds
the unit's threshold, a set flag forces the stored voltage at t to 0, and
every column at or before the run-start step holds zero flags and
voltages. -/
theorem kc_spike_iff {n g : ℕ} (p : KCSimParams n g) (t : ℕ)
    (ht : p.startStep < t) (i : Fin n) : KCSpikeSpec p t i := by
  obtain ⟨t', rfl⟩ : ∃ t', t = t' + 1 := ⟨t - 1, by omega⟩
  have hnot : ¬ (t' + 1 ≤ p.startStep) := by omega
  refine ⟨?_, ?_, ?_⟩
  · simp only [kcSim, if_neg hnot, kcStep, kcVmRaw, Nat.add_sub_cancel]
    split
    · exact iff_of_true rfl ‹_›
    · exact iff_of_false (by norm_num) ‹_›
  · simp only [kcSim, if_neg hnot, kcStep]
    split
    · intro _; rfl
    · intro h01; exact absurd h01 (by norm_num)
  · intro s hs
    cases s with
    | zero => exact ⟨rfl, rfl⟩
    | succ s => simp [kcSim, hs, kcZero]

/-- Witness instantiating the spike property one step past the run start
of the concrete parameter set. -/
theorem kc_spike_iff_witness : kcEx.startStep < 1 ∧ KCSpikeSpec kcEx 1 0 :=
  ⟨by decide, kc_spike_iff kcEx 1 (by decide) 0⟩

/-- Helper: in a list sorted by GE (decreasing), entries at later indices
are no larger. -/
theorem sorted_ge_getD_anti (l : List ℚ) (hs : l.Sorted (· ≥ ·)) {i j : ℕ}
    (hij : i ≤ j) (hj : j < l.length) : l.getD j 0 ≤ l.getD i 0 := by
  have hi : i < l.length := lt_of_le_of_lt hij hj
  rw [List.getD_eq_getElem l 0 hj, List.getD_eq_getElem l 0 hi]
  have h := List.Sorted.rel_get_of_le hs (a := ⟨i, hi⟩) (b := ⟨j, hj⟩) hij
  simpa using h

/-- Helper: reading entry i of the threshold column built from a scalar
floor plus twice the spontaneous input. -/
theorem getD_map_thr (c : ℚ) (l : List ℚ) (i : ℕ) (hi : i < l.length) :
    (l.map (fun s => c + s * 2)).getD i 0 = c + l[i] * 2 := by
  have hi' : i < (l.map (fun s => c + s * 2)).length := by simpa using hi
  rw [List.getD_eq_getElem _ 0 hi', List.getElem_map]

/-- C4: with the peak matrix and spontaneous input held fixed, raising
sp_target can only lower (or keep) every entry of the threshold column
chosen by the population-wide policy: the descending sort is fixed and
the picked rank min(int(2*sp_target*(N*odors)), N*odors - 1) moves down
the sorted list. -/
theorem choose_KC_thresh_uniform_monotone (N tsz : ℕ) (sp1 sp2 : ℚ)
    (KCpks spont_in : List ℚ) (hlen : KCpks.length = N * tsz) (hpos : 0 < N * tsz)
    (h0 : 0 ≤ sp1) (h12 : sp1 ≤ sp2) (i : ℕ) (hi : i < spont_in.length) :
    (choose_KC_thresh_uniform N tsz sp2 KCpks spont_in).getD i 0
      ≤ (choose_KC_thresh_uniform N tsz sp1 KCpks spont_in).getD i 0 := by
  have hsorted : (KCpks.insertionSort (· ≥ ·)).Sorted (· ≥ ·) :=
    List.sorted_insertionSort (· ≥ ·) KCpks
  have hslen : (KCpks.insertionSort (· ≥ ·)).length = N * tsz := by
    rw [List.length_insertionSort, hlen]
  have hmul : sp1 * 2 * ((N * tsz : ℕ) : ℚ) ≤ sp2 * 2 * ((N * tsz : ℕ) : ℚ) := by
    have hc : (0 : ℚ) ≤ ((N * tsz : ℕ) : ℚ) := Nat.cast_nonneg _
    nlinarith
  have hidx : min (⌊sp1 * 2 * ((N * tsz : ℕ) : ℚ)⌋.toNat) (N * tsz - 1)
      ≤ min (⌊sp2 * 2 * ((N * tsz : ℕ) : ℚ)⌋.toNat) (N * tsz - 1) := by
    have := Int.floor_le_floor (α := ℚ) hmul
    omega
  have hbound : min (⌊sp2 * 2 * ((N * tsz : ℕ) : ℚ)⌋.toNat) (N * tsz - 1)
      < (KCpks.insertionSort (· ≥ ·)).length := by
    rw [hslen]; omega
  have hconst := sorted_ge_getD_anti (KCpks.insertionSort (· ≥ ·)) hsorted hidx hbound
  simp only [choose_KC_thresh_uniform]
  rw [getD_map_thr _ _ _ hi, getD_map_thr _ _ _ hi]
  exact add_le_add_right hconst _

/-- Witness instantiating threshold monotonicity on a two-peak matrix at
targets 0 and 1. -/
theorem choose_KC_thresh_uniform_monotone_witness :
    (([3, 1] : List ℚ).length = 1 * 2 ∧ 0 < 1 * 2 ∧ (0 : ℚ) ≤ 0 ∧ (0 : ℚ) ≤ 1
      ∧ 0 < ([5] : List ℚ).length)
    ∧ (choose_KC_thresh_uniform 1 2 1 [3, 1] [5]).getD 0 0
        ≤ (choose_KC_thresh_uniform 1 2 0 [3, 1] [5]).getD 0 0 :=
  ⟨by decide,
   choose_KC_thresh_uniform_monotone 1 2 0 1 [3, 1] [5] (by decide) (by decide)
     (by decide) (by decide) 0 (by decide)⟩

/-- Helper: every cell accumulated over c claws is a natural number. -/
theorem clawAccum_natCast (G : ℕ) (d : ℕ → Fin G) (c : ℕ) (glom : Fin G) :
    ∃ m : ℕ, clawAccum G d c glom = (m : ℚ) := by
  induction c with
  | zero => exact ⟨0, rfl⟩
  | succ c ih =>
      obtain ⟨m, hm⟩ := ih
      by_cases h : d c = glom
      · exact ⟨m + 1, by simp [clawAccum, h, hm]⟩
      · exact ⟨m, by simp [clawAccum, h, hm]⟩

/-- Helper: the cells accumulated over c claws sum to c across the row. -/
theorem clawAccum_sum (G : ℕ) (d : ℕ → Fin G) (c : ℕ) :
    ∑ glom, clawAccum G d c glom = (c : ℚ) := by
  induction c with
  | zero => simp [clawAccum]
  | succ c ih =>
      simp only [clawAccum, Finset.sum_add_distrib, ih]
      rw [Finset.sum_ite_eq]
      simp

/-- C5: for any draw outcome supported on the positive entries of the
weight row, the generated matrix has non-negative integer entries, every
row sums to exactly the claw count, and uniform mode is the weighted
generator run on an all-ones weight row. -/
theorem build_wPNKC_rows (N G nclaws : ℕ) (cxnd : Fin G → ℚ) (draw : Fin N → ℕ → Fin G)
    (hpos : ∀ kc c, 0 < cxnd (draw kc c)) : WPNKCSpec N G nclaws cxnd draw :=
  ⟨fun kc glom => clawAccum_natCast G (draw kc) nclaws glom,
   fun kc => clawAccum_sum G (draw kc) nclaws, rfl⟩

/-- Witness instantiating the connectivity-row property for one KC, two
glomeruli and three claws drawn on an all-positive weight row. -/
theorem build_wPNKC_rows_witness :
    (∀ (kc : Fin 1) (c : ℕ), (0 : ℚ) < (fun _ : Fin 2 => (1 : ℚ)) ((fun _ _ => (0 : Fin 2)) kc c))
    ∧ WPNKCSpec 1 2 3 (fun _ => 1) (fun _ _ => 0) :=
  ⟨fun _ _ => by norm_num,
   build_wPNKC_rows 1 2 3 (fun _ => 1) (fun _ _ => 0) (fun _ _ => by norm_num)⟩

/-- C10: the homeostatic threshold chooser's per-row access at rank
unsigned(2*sp_target*cols) is in bounds precisely when that rank is below
the tuning-column count; sp_target < 1/2 with a non-empty tuning subset
guarantees it, the clamped population-wide rank is in bounds for every
target, and sp_target = 1/2 with one tuning odor sends the homeostatic
access out of bounds. -/
theorem choose_KC_thresh_homeostatic_bounds (N cols : ℕ) (sp : ℚ)
    (KCpks : Fin N → List ℚ) (spont_in : Fin N → ℚ) (hsp : 0 ≤ sp) :
    HomeostaticSpec N cols sp KCpks spont_in := by
  refine ⟨?_, ?_, ?_, ?_⟩
  · simp only [HomeostaticSpec, choose_KC_thresh_homeostatic]
    split
    · exact iff_of_true rfl ‹_›
    · exact iff_of_false (by simp) ‹_›
  · intro h1 h2
    have hc : (0 : ℚ) < (cols : ℚ) := by exact_mod_cast h2
    have hlt : sp * 2 * (cols : ℚ) < ((cols : ℤ) : ℚ) := by push_cast; nlinarith
    have := Int.floor_lt.mpr hlt
    omega
  · intro sp' L hL
    have := min_le_right ((⌊sp' * 2 * (L : ℚ)⌋).toNat) (L - 1)
    omega
  · simp only [choose_KC_thresh_homeostatic]
    norm_num

/-- Witness instantiating the homeostatic bounds property at target 0
with two tuning odors. -/
theorem choose_KC_thresh_homeostatic_bounds_witness :
    (0 : ℚ) ≤ 0 ∧ HomeostaticSpec 1 2 0 (fun _ => [1, 2]) (fun _ => 0) :=
  ⟨by decide, choose_KC_thresh_homeostatic_bounds 1 2 0 (fun _ => [1, 2]) (fun _ => 0) (by decide)⟩

/-- Helper: on an exactly aligned grid (start - pre_start = a*dt and
end - start = b*dt with dt > 0) the derived step counts are a, b and
a + b. -/
theorem grid_steps (tp : TimeParams) (a b : ℕ) (hdt : 0 < tp.dt)
    (ha : tp.start - tp.pre_start = (a : ℚ) * tp.dt)
    (hb : tp.endT - tp.start = (b : ℚ) * tp.dt) :
    tp.start_step = a ∧ tp.steps = b ∧ tp.steps_all = a + b := by
  have hdt' : tp.dt ≠ 0 := ne_of_gt hdt
  have hda : (tp.start - tp.pre_start) / tp.dt = (a : ℚ) := by
    rw [ha, mul_div_assoc, div_self hdt', mul_one]
  have hdb : (tp.endT - tp.start) / tp.dt = (b : ℚ) := by
    rw [hb, mul_div_assoc, div_self hdt', mul_one]
  have hab : tp.endT - tp.pre_start = ((a + b : ℕ) : ℚ) * tp.dt := by
    push_cast
    linarith
  have hdab : (tp.endT - tp.pre_start) / tp.dt = ((a + b : ℕ) : ℚ) := by
    rw [hab, mul_div_assoc, div_self hdt', mul_one]
  refine ⟨?_, ?_, ?_⟩
  · simp [TimeParams.start_step, hda]
  · simp [TimeParams.steps, hdb]
  · simp [TimeParams.steps_all, hdab]
    omega

/-- Helper: dropping the first step columns from series of step + k
columns leaves their last k columns, of length k. -/
theorem trim_family (step k : ℕ) (L : List (List (List ℚ)))
    (hall : ∀ s ∈ L, s.length = step + k) :
    L.map (remove_before step) = L.map (fun s => s.drop (s.length - k))
      ∧ ∀ s ∈ L.map (remove_before step), s.length = k := by
  constructor
  · refine List.map_congr_left fun s hs => ?_
    have h := hall s hs
    simp only [remove_before, h]
    congr 1
    omega
  · intro s hs
    obtain ⟨u, hu, rfl⟩ := List.mem_map.mp hs
    have h := hall u hu
    simp only [remove_before, List.length_drop, h]
    omega

/-- C6: under the exact time-grid alignment, trimming the pre-settle
columns leaves every stored ORN, LN-inhibition and PN series with exactly
steps() = (end - start)/dt columns, equal to the last steps() columns of
the original series. -/
theorem remove_all_pretime_correct (tp : TimeParams) (a b : ℕ) (hdt : 0 < tp.dt)
    (ha : tp.start - tp.pre_start = (a : ℚ) * tp.dt)
    (hb : tp.endT - tp.start = (b : ℚ) * tp.dt)
    (r : SimSeries)
    (h1 : ∀ s ∈ r.orn_sims, s.length = tp.steps_all)
    (h2 : ∀ s ∈ r.ln_inhA_sims, s.length = tp.steps_all)
    (h3 : ∀ s ∈ r.ln_inhB_sims, s.length = tp.steps_all)
    (h4 : ∀ s ∈ r.pn_sims, s.length = tp.steps_all) :
    TrimSpec tp r := by
  obtain ⟨hs, hst, hsa⟩ := grid_steps tp a b hdt ha hb
  have main : ∀ L : List (List (List ℚ)), (∀ s ∈ L, s.length = tp.steps_all) →
      (L.map (remove_before tp.start_step) = L.map (fun s => s.drop (s.length - tp.steps))
        ∧ ∀ s ∈ L.map (remove_before tp.start_step), s.length = tp.steps) := by
    intro L hall
    rw [hs, hst]
    exact trim_family a b L (fun s h => by rw [hall s h, hsa])
  exact ⟨main _ h1, main _ h2, main _ h3, main _ h4⟩

/-- Witness instantiating trim correctness on the grid pre_start -1,
start 0, end 1, dt 1/2 with four-column series. -/
theorem remove_all_pretime_correct_witness :
    (0 < tpEx.dt
      ∧ tpEx.start - tpEx.pre_start = ((2 : ℕ) : ℚ) * tpEx.dt
      ∧ tpEx.endT - tpEx.start = ((2 : ℕ) : ℚ) * tpEx.dt
      ∧ (∀ s ∈ rEx.orn_sims, s.length = tpEx.steps_all)
      ∧ (∀ s ∈ rEx.ln_inhA_sims, s.length = tpEx.steps_all)
      ∧ (∀ s ∈ rEx.ln_inhB_sims, s.length = tpEx.steps_all)
      ∧ (∀ s ∈ rEx.pn_sims, s.length = tpEx.steps_all))
    ∧ TrimSpec tpEx rEx := by
  have hdt : 0 < tpEx.dt := by norm_num [tpEx]
  have ha : tpEx.start - tpEx.pre_start = ((2 : ℕ) : ℚ) * tpEx.dt := by norm_num [tpEx]
  have hb : tpEx.endT - tpEx.start = ((2 : ℕ) : ℚ) * tpEx.dt := by norm_num [tpEx]
  have hsa : tpEx.steps_all = 4 := by
    norm_num [tpEx, TimeParams.steps_all]
    decide
  have hshape : ∀ s ∈ ([[[(0 : ℚ)], [1], [2], [3]]] : List (List (List ℚ))), s.length = tpEx.steps_all := by
    rw [hsa]
    intro s hs
    simp only [List.mem_singleton] at hs
    subst hs
    rfl
  exact ⟨⟨hdt, ha, hb, hshape, hshape, hshape, hshape⟩,
    remove_all_pretime_correct tpEx 2 2 hdt ha hb rEx hshape hshape hshape hshape⟩

/-- C7: run_KC_sims with regeneration disabled writes only the response
and spike-count matrices: connectivity, thresholds, both feedback weight
vectors and the tuning counter are exactly the caller's, and a second
regeneration-disabled call observes the same connectivity, thresholds and
weights as the first and reproduces its responses and spike counts. -/
theorem run_KC_sims_no_regen_frame {n g odors : ℕ} (sc : KCSimConsts)
    (pn_sims : Fin odors → ℕ → Fin g → ℚ)
    (buildFit : KCRunVars n g odors → KCRunVars n g odors)
    (rv : KCRunVars n g odors) :
    ((run_KC_sims sc pn_sims false buildFit rv).wPNKC = rv.wPNKC
      ∧ (run_KC_sims sc pn_sims false buildFit rv).wAPLKC = rv.wAPLKC
      ∧ (run_KC_sims sc pn_sims false buildFit rv).wKCAPL = rv.wKCAPL
      ∧ (run_KC_sims sc pn_sims false buildFit rv).thr = rv.thr
      ∧ (run_KC_sims sc pn_sims false buildFit rv).tuning_iters = rv.tuning_iters)
    ∧ ((run_KC_sims sc pn_sims false buildFit
          (run_KC_sims sc pn_sims false buildFit rv)).wPNKC = rv.wPNKC
      ∧ (run_KC_sims sc pn_sims false buildFit
          (run_KC_sims sc pn_sims false buildFit rv)).wAPLKC = rv.wAPLKC
      ∧ (run_KC_sims sc pn_sims false buildFit
          (run_KC_sims sc pn_sims false buildFit rv)).wKCAPL = rv.wKCAPL
      ∧ (run_KC_sims sc pn_sims false buildFit
          (run_KC_sims sc pn_sims false buildFit rv)).thr = rv.thr
      ∧ (run_KC_sims sc pn_sims false buildFit
          (run_KC_sims sc pn_sims false buildFit rv)).responses
          = (run_KC_sims sc pn_sims false buildFit rv).responses
      ∧ (run_KC_sims sc pn_sims false buildFit
          (run_KC_sims sc pn_sims false buildFit rv)).spike_counts
          = (run_KC_sims sc pn_sims false buildFit rv).spike_counts) :=
  ⟨⟨rfl, rfl, rfl, rfl, rfl⟩, ⟨rfl, rfl, rfl, rfl, rfl, rfl⟩⟩

/-- Helper: the coded rectification (x - c)*indicator(c < x) is the
max with zero of x - c. -/
theorem rect_eq_max (x c : ℚ) : (x - c) * (if c < x then 1 else 0) = max (x - c) 0 := by
  rcases lt_or_le c x with h | h
  · rw [if_pos h, mul_one, max_eq_left (by linarith)]
  · rw [if_neg (not_lt.mpr h), mul_zero, max_eq_right (by linarith)]

/-- Helper: the response field produced by one LN step is the rectified
above-threshold potential of that step. -/
theorem lnStep_response {g : ℕ} (p : LNParams g) (s : LNState) (t : ℕ) :
    (lnStep p s t).response = max ((lnStep p s t).potential - p.thr) 0 := by
  simp only [lnStep]
  exact rect_eq_max _ _

/-- C8 counterexample: at the concrete LN parameter set and the first
simulated step, the code's potential update does not relax toward the
drive term the specification sentence describes (mean receptor activity
cubed, rescaled by the physical-to-model glomerulus-count ratio, times
the current-step inhibition gain): the code instead multiplies the mean
by the model-to-physical ratio before cubing, divides by that ratio and
by 2 afterwards, and uses the gain left by the previous step. -/
theorem ln_drive_spec_counterexample :
    ¬ ((lnSim lnEx 1).potential
        = (lnSim lnEx 0).potential
          + (-(lnSim lnEx 0).potential + lnDriveSpec lnEx 1) * lnEx.dt / lnEx.taum) := by
  have h1 : (lnSim lnEx 1).potential = 0 := by
    norm_num [lnSim, lnStep, lnInit, lnEx, Fin.sum_univ_one]
  have h2 : lnDriveSpec lnEx 1 = 2 := by
    norm_num [lnDriveSpec, lnSim, lnStep, lnInit, lnEx, Fin.sum_univ_one]
  intro h
  rw [h1, h2] at h
  norm_num [lnSim, lnInit, lnEx] at h

/-- C8 (amended): at every simulated step t+1 the potential relaxes, with
gain dt/taum, toward the drive
(mean(orn.col(t))*scaling)^3/scaling/2 * inh_LN where scaling is the
model-to-physical glomerulus-count ratio and inh_LN the gain left by step
t (zero before the first step); the response is max(0, potential - thr);
and the gain is recomputed each step as inhsc/(inhadd + inhA) at the
current step. -/
theorem ln_layer_recurrence (g : ℕ) (p : LNParams g) (t : ℕ) :
    ((lnSim p (t + 1)).potential = (lnSim p t).potential
      + (-(lnSim p t).potential
        + ((((∑ j, p.orn_t t j) / (g : ℚ)) * ((g : ℚ) / (p.nPhysicalGloms : ℚ))) ^ 3
            / ((g : ℚ) / (p.nPhysicalGloms : ℚ)) / 2) * (lnSim p t).inhLN)
        * p.dt / p.taum)
    ∧ ((lnSim p (t + 1)).response = max ((lnSim p (t + 1)).potential - p.thr) 0)
    ∧ ((lnSim p (t + 1)).inhLN = p.inhsc / (p.inhadd + (lnSim p (t + 1)).inhA)) := by
  refine ⟨?_, ?_, ?_⟩
  · simp only [lnSim, lnStep, Nat.add_sub_cancel]
  · simp only [lnSim]
    exact lnStep_response p (lnSim p t) (t + 1)
  · simp only [lnSim, lnStep]

/-- C9 counterexample: the accessor surface does not serve the
spike-count matrix: requesting it under its natural name falls through
every ACCESS clause of hook.cpp and raises the invalid-name error instead
of returning the stored kc.spike_counts run variable. -/
theorem access_rvar_spike_counts_counterexample :
    (access_rvar rvEx ("kc.spike_counts") (RVal.nat 0) false).2
      = Except.error ("invalid run variable: kc.spike_counts") := by
  rfl

/-- C9 (amended): the accessor returns the stored run variable for the
documented result names kc.responses, kc.thr and kc.tuning_iters without
touching the state, and for every name outside the recognised set
(kc.spike_counts among them) it fails immediately with an error naming
the invalid variable and leaves the state unchanged. -/
theorem access_rvar_results (rv : RunVarsAcc) (v : RVal) (s : Bool) (name : String)
    (hname : name ∉ rvarNames) : AccessRvarSpec rv v s name := by
  refine ⟨rfl, rfl, rfl, ?_⟩
  simp only [rvarNames, List.mem_cons, List.not_mem_nil, or_false, not_or] at hname
  obtain ⟨e1, e2, e3, e4, e5, e6, e7, e8, e9, e10, e11, e12⟩ := hname
  simp only [access_rvar, if_neg e1, if_neg e2, if_neg e3, if_neg e4, if_neg e5,
    if_neg e6, if_neg e7, if_neg e8, if_neg e9, if_neg e10, if_neg e11, if_neg e12]

/-- Witness instantiating the accessor property at the empty state and an
unrecognised name. -/
theorem access_rvar_results_witness :
    (("bogus") ∉ rvarNames ∧ AccessRvarSpec rvEx (RVal.nat 0) false ("bogus")) :=
  ⟨by decide, access_rvar_results rvEx (RVal.nat 0) false ("bogus") (by decide)⟩

/-- C6 counterexample: on the misaligned grid tpMis, which satisfies the
time-grid invariant (pre_start < start < end, dt > 0) but whose start and
end do not fall on the dt grid, a populated state whose series all have
steps_all columns is trimmed to series of steps_all - start_step = 2
columns while steps() = 1, so the trim property fails as stated. -/
theorem remove_all_pretime_misaligned_counterexample :
    (0 < tpMis.dt ∧ tpMis.pre_start < tpMis.start ∧ tpMis.start < tpMis.endT)
    ∧ (∀ s ∈ rMis.orn_sims, s.length = tpMis.steps_all)
    ∧ (∀ s ∈ rMis.ln_inhA_sims, s.length = tpMis.steps_all)
    ∧ (∀ s ∈ rMis.ln_inhB_sims, s.length = tpMis.steps_all)
    ∧ (∀ s ∈ rMis.pn_sims, s.length = tpMis.steps_all)
    ∧ ¬ TrimSpec tpMis rMis := by
  have hsa : tpMis.steps_all = 2 := by
    norm_num [tpMis, TimeParams.steps_all]
    decide
  have hss : tpMis.start_step = 0 := by
    norm_num [tpMis, TimeParams.start_step]
  have hst : tpMis.steps = 1 := by
    norm_num [tpMis, TimeParams.steps]
  have hshape : ∀ s ∈ ([[[(0 : ℚ)], [1]]] : List (List (List ℚ))), s.length = tpMis.steps_all := by
    rw [hsa]
    intro s hs
    simp only [List.mem_singleton] at hs
    subst hs
    rfl
  refine ⟨⟨by norm_num [tpMis], by norm_num [tpMis], by norm_num [tpMis]⟩,
    hshape, hshape, hshape, hshape, ?_⟩
  intro h
  have hlen := h.1.2
  have hm : [[(0 : ℚ)], [1]] ∈ (remove_all_pretime tpMis rMis).orn_sims := by
    simp [remove_all_pretime, rMis, remove_before, hss]
  have h2 := hlen _ hm
  rw [hst] at h2
  simp at h2
